import Mathlib

set_option linter.unusedVariables false

namespace MOS

/-!
Shallow embedding of the mos6502 emulator core (Go package `cpu`).
Machine integers are modelled as `Nat` with explicit `% 256` (uint8) and
`% 65536` (uint16) truncation at the points where the Go code converts or
wraps.  Field and function names follow the Go source (`flags.go`,
`memory.go`, `ops.go`, `cpu.go` and the instruction/addressing file).
-/

/-- Halt kinds, from `cpu.go` (`HaltType`). -/
inductive HaltType where
  | Continue
  | HaltSuccess
  | HaltTrap
  | HaltUnknownInstruction
deriving DecidableEq

/-- Flag bit masks from `flags.go` (`1 << iota`). -/
def P_Carry : Nat := 1

def P_Zero : Nat := 2

def P_InterruptDisable : Nat := 4

def P_Decimal : Nat := 8

def P_Break : Nat := 16

def P_Reserved : Nat := 32

def P_Overflow : Nat := 64

def P_Negative : Nat := 128

/-- Go `flags.isSet`: `uint8(*a) & uint8(b) != 0`. -/
def flags.isSet (a b : Nat) : Bool := a &&& b != 0

/-- Go `flags.set`: or the mask in, or and with its 8-bit complement
(`&^` on uint8). -/
def flags.set (a b : Nat) (v : Bool) : Nat :=
  if v then a ||| b else a &&& (255 ^^^ b)

/-- Memory is a flat 65536-byte array (`memory.go`), modelled as a
function; addresses are taken mod 65536 and stored bytes mod 256 at the
uint16/uint8 boundaries. -/
abbrev Memory := Nat → Nat

/-- Go `Memory.Read`: returns `m[address]`. -/
def Memory.Read (m : Memory) (address : Nat) : Nat :=
  m (address % 65536) % 256

/-- Go `Memory.ReadWord`: `uint16(m[address]) + (uint16(m[address+1]) << 8)`;
`address+1` wraps at 16 bits. -/
def Memory.ReadWord (m : Memory) (address : Nat) : Nat :=
  Memory.Read m address + (Memory.Read m (address + 1)) <<< 8

/-- Direct array store `cpu.memory[address] = b` (b is a uint8). -/
def Memory.write (m : Memory) (address v : Nat) : Memory :=
  fun i => if i = address % 65536 then v % 256 else m i

/-- Interrupt vector constants from `cpu.go`. -/
def IRQVectorLow : Nat := 0xfffe

def IRQVectorHigh : Nat := 0xffff

def NMIVectorLow : Nat := 0xfffa

def NMIVectorHigh : Nat := 0xfffb

def RESVectorLow : Nat := 0xfffc

def RESVectorHigh : Nat := 0xfffd

def StackOffset : Nat := 0x100

def StackBottom : Nat := 0x00

def StackTop : Nat := 0xff

/-- Ring-buffer size of the trap detector. -/
def trapDetectorBufferSize : Nat := 16

/-- The trap detector's ring buffer of recent PCs (Go `trapDetector`). -/
structure TrapRing where
  buffer : Nat → Nat
  index : Nat

/-- Go `trapDetector.push`: store at the current index, advance mod 16. -/
def TrapRing.push (ld : TrapRing) (value : Nat) : TrapRing :=
  { buffer := fun i => if i = ld.index then value % 65536 else ld.buffer i,
    index := (ld.index + 1) % trapDetectorBufferSize }

/-- Go `trapDetector.hastrap`: the first half of the buffer equals the
second half element-wise. -/
def TrapRing.hastrap (ld : TrapRing) : Bool :=
  decide (∀ i < trapDetectorBufferSize / 2,
    ld.buffer i = ld.buffer (i + trapDetectorBufferSize / 2))

/-- Addressing modes, from the instruction file. -/
inductive AddressMode where
  | AM_IMPLIED
  | AM_IMMEDIATE
  | AM_ABSOLUTE
  | AM_ZEROPAGE
  | AM_INDEXED_X
  | AM_INDEXED_Y
  | AM_ZEROPAGE_X
  | AM_ZEROPAGE_Y
  | AM_INDIRECT
  | AM_PRE_INDEXED
  | AM_POST_INDEXED
  | AM_RELATIVE
deriving DecidableEq

/-- Mnemonic tags (`OPCode` constants in the Go source). -/
inductive OPCode where
  | ADC | AND | ASL | BCC | BCS | BEQ | BIT | BMI | BNE | BPL
  | BRK | BVC | BVS | CLC | CLD | CLI | CLV | CMP | CPX | CPY
  | DEC | DEX | DEY | EOR | INC | INX | INY | JMP | JSR | LDA
  | LDX | LDY | LSR | NOP | ORA | PHA | PHP | PLA | PLP | ROL
  | ROR | RTI | RTS | SBC | SEC | SED | SEI | STA | STX | STY
  | TAX | TAY | TSX | TXA | TXS | TYA
deriving DecidableEq

/-- A dispatch-table entry (`instruction` struct): mnemonic, base cycle
count, byte size and addressing mode.  The Go struct also stores the
handler function; every table row pairs a mnemonic with its handler
one-to-one, so execution dispatches on the mnemonic tag here. -/
structure Instr where
  opc : OPCode
  cycles : Nat
  size : Nat
  mode : AddressMode

/-- Processor state (`MOS6502` struct in `cpu.go`). -/
structure MOS6502 where
  a : Nat
  x : Nat
  y : Nat
  sp : Nat
  pc : Nat
  p : Nat
  wait : Nat
  memory : Memory
  halt : HaltType
  Debug : Bool
  TrapDetector : Bool
  trapDetector : TrapRing
  additionalCycles : Nat
  TotalCycles : Nat
  StopOnPC : Nat

/-- Go `stackAddress`: `StackOffset | uint16(sp)`. -/
def stackAddress (sp : Nat) : Nat := StackOffset ||| (sp % 256)

/-- Go `push`: store at the stack address, decrement SP (uint8 wrap). -/
def MOS6502.push (cpu : MOS6502) (b : Nat) : MOS6502 :=
  { cpu with memory := cpu.memory.write (stackAddress cpu.sp) b,
             sp := (cpu.sp + 255) % 256 }

/-- Go `pop`: increment SP (uint8 wrap), then read the stack byte. -/
def MOS6502.pop (cpu : MOS6502) : Nat × MOS6502 :=
  let cpu := { cpu with sp := (cpu.sp + 1) % 256 }
  (cpu.memory.Read (stackAddress cpu.sp), cpu)

/-- Method form of `cpu.p.set(b, v)`. -/
def MOS6502.setP (cpu : MOS6502) (b : Nat) (v : Bool) : MOS6502 :=
  { cpu with p := flags.set cpu.p b v }

/-- Go `testAndSetNegative`: N ← `b & 0x80 == 0x80`. -/
def MOS6502.testAndSetNegative (cpu : MOS6502) (b : Nat) : MOS6502 :=
  cpu.setP P_Negative (b &&& 0x80 == 0x80)

/-- Go `testAndSetZero`: Z ← `b == 0`. -/
def MOS6502.testAndSetZero (cpu : MOS6502) (b : Nat) : MOS6502 :=
  cpu.setP P_Zero (b == 0x0)

/-- Go `testAndSetCarry`: C ← `b > 0xff` (b is a uint16). -/
def MOS6502.testAndSetCarry (cpu : MOS6502) (b : Nat) : MOS6502 :=
  cpu.setP P_Carry (decide (0xff < b))

/-- Go `testAndSetOverflow`: V ← `(a^sum)&(b^sum)&0x80 == 0x80`. -/
def MOS6502.testAndSetOverflow (cpu : MOS6502) (a b sum : Nat) : MOS6502 :=
  cpu.setP P_Overflow ((a ^^^ sum) &&& (b ^^^ sum) &&& 0x80 == 0x80)

/-- ADC handler (`ops.go`): 9-bit sum of A, the operand byte and the
carry-in, truncated to 8 bits; C/N/Z/V set from the sum. -/
def MOS6502.adc (cpu : MOS6502) (ins : Instr) (address : Nat) : MOS6502 :=
  let c : Nat := if flags.isSet cpu.p P_Carry then 1 else 0
  let a := cpu.a
  let m := cpu.memory.Read address
  let sum := a + m + c
  let cpu := { cpu with a := sum &&& 0xff }
  let cpu := cpu.testAndSetCarry sum
  let cpu := cpu.testAndSetNegative cpu.a
  let cpu := cpu.testAndSetZero cpu.a
  cpu.testAndSetOverflow a m cpu.a

/-- AND handler. -/
def MOS6502.and (cpu : MOS6502) (ins : Instr) (address : Nat) : MOS6502 :=
  let b := cpu.memory.Read address
  let cpu := { cpu with a := cpu.a &&& b }
  let cpu := cpu.testAndSetNegative cpu.a
  cpu.testAndSetZero cpu.a

/-- ASL handler: shift left one bit, on A (implied mode) or memory. -/
def MOS6502.asl (cpu : MOS6502) (ins : Instr) (address : Nat) : MOS6502 :=
  let accumulator := decide (ins.mode = AddressMode.AM_IMPLIED)
  let value := if accumulator then cpu.a else cpu.memory.Read address
  let shifted := value <<< 1
  let cpu := if accumulator then { cpu with a := shifted % 256 }
             else { cpu with memory := cpu.memory.write address (shifted % 256) }
  let cpu := cpu.testAndSetNegative (shifted % 256)
  let cpu := cpu.testAndSetZero (shifted % 256)
  cpu.testAndSetCarry shifted

/-- Branch helper (`ops.go`): apply the signed 8-bit offset to PC and
record the taken / page-cross surcharges in `additionalCycles`. -/
def MOS6502.branch (cpu : MOS6502) (offset : Nat) : MOS6502 :=
  let begin := cpu.pc
  let cpu := if offset < 0x80 then { cpu with pc := (cpu.pc + offset) % 65536 }
             else { cpu with pc := (cpu.pc + 65536 - (0x100 - offset)) % 65536 }
  let cpu := { cpu with additionalCycles := (cpu.additionalCycles + 1) % 256 }
  if (begin &&& 0xff00) != (cpu.pc &&& 0xff00) then
    { cpu with additionalCycles := (cpu.additionalCycles + 1) % 256 }
  else cpu

/-- BCC handler. -/
def MOS6502.bcc (cpu : MOS6502) (ins : Instr) (address : Nat) : MOS6502 :=
  if flags.isSet cpu.p P_Carry then cpu else cpu.branch address

/-- BCS handler. -/
def MOS6502.bcs (cpu : MOS6502) (ins : Instr) (address : Nat) : MOS6502 :=
  if !flags.isSet cpu.p P_Carry then cpu else cpu.branch address

/-- BEQ handler. -/
def MOS6502.beq (cpu : MOS6502) (ins : Instr) (address : Nat) : MOS6502 :=
  if !flags.isSet cpu.p P_Zero then cpu else cpu.branch address

/-- BIT handler. -/
def MOS6502.bit (cpu : MOS6502) (ins : Instr) (address : Nat) : MOS6502 :=
  let value := cpu.memory.Read address
  let cpu := cpu.testAndSetZero (cpu.a &&& value)
  let cpu := cpu.setP P_Negative (value &&& (1 <<< 7) != 0)
  cpu.setP P_Overflow (value &&& (1 <<< 6) != 0)

/-- BMI handler. -/
def MOS6502.bmi (cpu : MOS6502) (ins : Instr) (address : Nat) : MOS6502 :=
  if !flags.isSet cpu.p P_Negative then cpu else cpu.branch address

/-- BNE handler. -/
def MOS6502.bne (cpu : MOS6502) (ins : Instr) (address : Nat) : MOS6502 :=
  if flags.isSet cpu.p P_Zero then cpu else cpu.branch address

/-- BPL handler. -/
def MOS6502.bpl (cpu : MOS6502) (ins : Instr) (address : Nat) : MOS6502 :=
  if flags.isSet cpu.p P_Negative then cpu else cpu.branch address

/-- BRK handler: advance PC, push PC and P (with B set), set I, load the
IRQ vector. -/
def MOS6502.brk (cpu : MOS6502) (ins : Instr) (address : Nat) : MOS6502 :=
  let cpu := { cpu with pc := (cpu.pc + 1) % 65536 }
  let cpu := cpu.push (cpu.pc >>> 8)
  let cpu := cpu.push (cpu.pc &&& 0xff)
  let cpu := cpu.setP P_Break true
  let cpu := cpu.push cpu.p
  let cpu := cpu.setP P_InterruptDisable true
  let hi := (cpu.memory.Read IRQVectorHigh) <<< 8
  let lo := cpu.memory.Read IRQVectorLow
  { cpu with pc := lo ||| hi }

/-- BVC handler. -/
def MOS6502.bvc (cpu : MOS6502) (ins : Instr) (address : Nat) : MOS6502 :=
  if flags.isSet cpu.p P_Overflow then cpu else cpu.branch address

/-- BVS handler. -/
def MOS6502.bvs (cpu : MOS6502) (ins : Instr) (address : Nat) : MOS6502 :=
  if !flags.isSet cpu.p P_Overflow then cpu else cpu.branch address

/-- CLC handler. -/
def MOS6502.clc (cpu : MOS6502) (ins : Instr) (address : Nat) : MOS6502 :=
  cpu.setP P_Carry false

/-- CLD handler. -/
def MOS6502.cld (cpu : MOS6502) (ins : Instr) (address : Nat) : MOS6502 :=
  cpu.setP P_Decimal false

/-- CLI handler. -/
def MOS6502.cli (cpu : MOS6502) (ins : Instr) (address : Nat) : MOS6502 :=
  cpu.setP P_InterruptDisable false

/-- CLV handler. -/
def MOS6502.clv (cpu : MOS6502) (ins : Instr) (address : Nat) : MOS6502 :=
  cpu.setP P_Overflow false

/-- CMP handler: uint8 subtraction (wrapping) for N/Z, C from `a >= b`. -/
def MOS6502.cmp (cpu : MOS6502) (ins : Instr) (address : Nat) : MOS6502 :=
  let b := cpu.memory.Read address
  let sub := (cpu.a + 256 - b) % 256
  let cpu := cpu.setP P_Carry (decide (b ≤ cpu.a))
  let cpu := cpu.testAndSetNegative sub
  cpu.testAndSetZero sub

/-- CPX handler. -/
def MOS6502.cpx (cpu : MOS6502) (ins : Instr) (address : Nat) : MOS6502 :=
  let b := cpu.memory.Read address
  let sub := (cpu.x + 256 - b) % 256
  let cpu := cpu.setP P_Carry (decide (b ≤ cpu.x))
  let cpu := cpu.testAndSetNegative sub
  cpu.testAndSetZero sub

/-- CPY handler. -/
def MOS6502.cpy (cpu : MOS6502) (ins : Instr) (address : Nat) : MOS6502 :=
  let b := cpu.memory.Read address
  let sub := (cpu.y + 256 - b) % 256
  let cpu := cpu.setP P_Carry (decide (b ≤ cpu.y))
  let cpu := cpu.testAndSetNegative sub
  cpu.testAndSetZero sub

/-- DEC handler. -/
def MOS6502.dec (cpu : MOS6502) (ins : Instr) (address : Nat) : MOS6502 :=
  let b := cpu.memory.Read address
  let b := (b + 255) % 256
  let cpu := { cpu with memory := cpu.memory.write address b }
  let cpu := cpu.testAndSetNegative b
  cpu.testAndSetZero b

/-- DEX handler. -/
def MOS6502.dex (cpu : MOS6502) (ins : Instr) (address : Nat) : MOS6502 :=
  let cpu := { cpu with x := (cpu.x + 255) % 256 }
  let cpu := cpu.testAndSetNegative cpu.x
  cpu.testAndSetZero cpu.x

/-- DEY handler. -/
def MOS6502.dey (cpu : MOS6502) (ins : Instr) (address : Nat) : MOS6502 :=
  let cpu := { cpu with y := (cpu.y + 255) % 256 }
  let cpu := cpu.testAndSetNegative cpu.y
  cpu.testAndSetZero cpu.y

/-- EOR handler. -/
def MOS6502.eor (cpu : MOS6502) (ins : Instr) (address : Nat) : MOS6502 :=
  let value := cpu.memory.Read address
  let cpu := { cpu with a := cpu.a ^^^ value }
  let cpu := cpu.testAndSetNegative cpu.a
  cpu.testAndSetZero cpu.a

/-- INX handler. -/
def MOS6502.inx (cpu : MOS6502) (ins : Instr) (address : Nat) : MOS6502 :=
  let cpu := { cpu with x := (cpu.x + 1) % 256 }
  let cpu := cpu.testAndSetNegative cpu.x
  cpu.testAndSetZero cpu.x

/-- INY handler. -/
def MOS6502.iny (cpu : MOS6502) (ins : Instr) (address : Nat) : MOS6502 :=
  let cpu := { cpu with y := (cpu.y + 1) % 256 }
  let cpu := cpu.testAndSetNegative cpu.y
  cpu.testAndSetZero cpu.y

/-- INC handler: increment the byte in memory, then read it back for the
flag updates. -/
def MOS6502.inc (cpu : MOS6502) (ins : Instr) (address : Nat) : MOS6502 :=
  let cpu := { cpu with memory := cpu.memory.write address (cpu.memory.Read address + 1) }
  let value := cpu.memory.Read address
  let cpu := cpu.testAndSetNegative value
  cpu.testAndSetZero value

/-- JMP handler. -/
def MOS6502.jmp (cpu : MOS6502) (ins : Instr) (address : Nat) : MOS6502 :=
  { cpu with pc := address }

/-- JSR handler: push PC-1 high then low, jump. -/
def MOS6502.jsr (cpu : MOS6502) (ins : Instr) (address : Nat) : MOS6502 :=
  let pc := (cpu.pc + 65535) % 65536
  let hi := pc >>> 8
  let lo := pc % 256
  let cpu := cpu.push hi
  let cpu := cpu.push lo
  { cpu with pc := address }

/-- LDA handler: note the Go code does a 16-bit `ReadWord` at the
effective address and truncates it to a byte. -/
def MOS6502.lda (cpu : MOS6502) (ins : Instr) (address : Nat) : MOS6502 :=
  let value := cpu.memory.ReadWord address
  let cpu := { cpu with a := value % 256 }
  let cpu := cpu.testAndSetNegative cpu.a
  cpu.testAndSetZero cpu.a

/-- LDX handler. -/
def MOS6502.ldx (cpu : MOS6502) (ins : Instr) (address : Nat) : MOS6502 :=
  let value := cpu.memory.ReadWord address
  let cpu := { cpu with x := value % 256 }
  let cpu := cpu.testAndSetNegative cpu.x
  cpu.testAndSetZero cpu.x

/-- LDY handler. -/
def MOS6502.ldy (cpu : MOS6502) (ins : Instr) (address : Nat) : MOS6502 :=
  let value := cpu.memory.ReadWord address
  let cpu := { cpu with y := value % 256 }
  let cpu := cpu.testAndSetNegative cpu.y
  cpu.testAndSetZero cpu.y

/-- LSR handler: shift right one bit, on A (implied mode) or memory;
C is set from `testAndSetCarry` of the already-shifted value and N is
forced to 0. -/
def MOS6502.lsr (cpu : MOS6502) (ins : Instr) (address : Nat) : MOS6502 :=
  let accumulator := decide (ins.mode = AddressMode.AM_IMPLIED)
  let value := if accumulator then cpu.a else cpu.memory.Read address
  let shifted := value >>> 1
  let cpu := if accumulator then { cpu with a := shifted % 256 }
             else { cpu with memory := cpu.memory.write address (shifted % 256) }
  let cpu := cpu.testAndSetZero (shifted % 256)
  let cpu := cpu.testAndSetCarry shifted
  cpu.setP P_Negative false

/-- NOP handler. -/
def MOS6502.nop (cpu : MOS6502) (ins : Instr) (address : Nat) : MOS6502 :=
  cpu

/-- ORA handler. -/
def MOS6502.ora (cpu : MOS6502) (ins : Instr) (address : Nat) : MOS6502 :=
  let value := cpu.memory.Read address
  let cpu := { cpu with a := cpu.a ||| value }
  let cpu := cpu.testAndSetNegative cpu.a
  cpu.testAndSetZero cpu.a

/-- PHA handler. -/
def MOS6502.pha (cpu : MOS6502) (ins : Instr) (address : Nat) : MOS6502 :=
  cpu.push cpu.a

/-- PHP handler: push P with the break flag and bit 5 set. -/
def MOS6502.php (cpu : MOS6502) (ins : Instr) (address : Nat) : MOS6502 :=
  let p := cpu.p ||| P_Break ||| P_Reserved
  cpu.push p

/-- PLA handler. -/
def MOS6502.pla (cpu : MOS6502) (ins : Instr) (address : Nat) : MOS6502 :=
  let bc := cpu.pop
  let cpu := { bc.2 with a := bc.1 }
  let cpu := cpu.testAndSetNegative cpu.a
  cpu.testAndSetZero cpu.a

/-- PLP handler: pop into P, then force the reserved bit on. -/
def MOS6502.plp (cpu : MOS6502) (ins : Instr) (address : Nat) : MOS6502 :=
  let bc := cpu.pop
  let cpu := { bc.2 with p := bc.1 }
  cpu.setP P_Reserved true

/-- ROL handler. -/
def MOS6502.rol (cpu : MOS6502) (ins : Instr) (address : Nat) : MOS6502 :=
  let accumulator := decide (ins.mode = AddressMode.AM_IMPLIED)
  let value := if accumulator then cpu.a else cpu.memory.Read address
  let c : Nat := if flags.isSet cpu.p P_Carry then 1 else 0
  let rolled := (value <<< 1) ||| c
  let cpu := if accumulator then { cpu with a := rolled % 256 }
             else { cpu with memory := cpu.memory.write address (rolled % 256) }
  let cpu := cpu.setP P_Carry (value &&& 0x80 == 0x80)
  let cpu := cpu.testAndSetNegative (rolled % 256)
  cpu.testAndSetZero (rolled % 256)

/-- ROR handler. -/
def MOS6502.ror (cpu : MOS6502) (ins : Instr) (address : Nat) : MOS6502 :=
  let accumulator := decide (ins.mode = AddressMode.AM_IMPLIED)
  let value := if accumulator then cpu.a else cpu.memory.Read address
  let c : Nat := if flags.isSet cpu.p P_Carry then 1 else 0
  let rolled := (value >>> 1) ||| (c <<< 7)
  let cpu := if accumulator then { cpu with a := rolled % 256 }
             else { cpu with memory := cpu.memory.write address (rolled % 256) }
  let cpu := cpu.setP P_Carry (value &&& 0x01 == 0x01)
  let cpu := cpu.testAndSetNegative (rolled % 256)
  cpu.testAndSetZero (rolled % 256)

/-- RTI handler: pop P (force bit 5 on, B off), pop PC low then high. -/
def MOS6502.rti (cpu : MOS6502) (ins : Instr) (address : Nat) : MOS6502 :=
  let bp := cpu.pop
  let cpu := { bp.2 with p := bp.1 }
  let cpu := cpu.setP P_Reserved true
  let cpu := cpu.setP P_Break false
  let blo := cpu.pop
  let cpu := blo.2
  let bhi := cpu.pop
  let cpu := bhi.2
  { cpu with pc := (bhi.1 <<< 8) ||| blo.1 }

/-- RTS handler: pop PC low then high, then increment PC. -/
def MOS6502.rts (cpu : MOS6502) (ins : Instr) (address : Nat) : MOS6502 :=
  let blo := cpu.pop
  let cpu := blo.2
  let bhi := cpu.pop
  let cpu := bhi.2
  let cpu := { cpu with pc := blo.1 ||| (bhi.1 <<< 8) }
  { cpu with pc := (cpu.pc + 1) % 65536 }

/-- SBC handler (`ops.go`): uint16 computation `a - m + c` (wrapping),
truncated to 8 bits; C from `sum < 0x100`; V from the sign-bit test in
the source. -/
def MOS6502.sbc (cpu : MOS6502) (ins : Instr) (address : Nat) : MOS6502 :=
  let c : Nat := if flags.isSet cpu.p P_Carry then 1 else 0
  let a := cpu.a
  let m := cpu.memory.Read address
  let sum := (a + 65536 - m + c) % 65536
  let cpu := { cpu with a := sum &&& 0xff }
  let cpu := cpu.setP P_Carry (decide (sum < 0x100))
  let cpu := cpu.testAndSetNegative cpu.a
  let cpu := cpu.testAndSetZero cpu.a
  cpu.setP P_Overflow (((a ^^^ m) &&& 0x80 == 0x80) && ((a ^^^ cpu.a) &&& 0x80 == 0x80))

/-- SEC handler. -/
def MOS6502.sec (cpu : MOS6502) (ins : Instr) (address : Nat) : MOS6502 :=
  cpu.setP P_Carry true

/-- SED handler. -/
def MOS6502.sed (cpu : MOS6502) (ins : Instr) (address : Nat) : MOS6502 :=
  cpu.setP P_Decimal true

/-- SEI handler. -/
def MOS6502.sei (cpu : MOS6502) (ins : Instr) (address : Nat) : MOS6502 :=
  cpu.setP P_InterruptDisable true

/-- STA handler. -/
def MOS6502.sta (cpu : MOS6502) (ins : Instr) (address : Nat) : MOS6502 :=
  { cpu with memory := cpu.memory.write address cpu.a }

/-- STX handler. -/
def MOS6502.stx (cpu : MOS6502) (ins : Instr) (address : Nat) : MOS6502 :=
  { cpu with memory := cpu.memory.write address cpu.x }

/-- STY handler. -/
def MOS6502.sty (cpu : MOS6502) (ins : Instr) (address : Nat) : MOS6502 :=
  { cpu with memory := cpu.memory.write address cpu.y }

/-- TAX handler. -/
def MOS6502.tax (cpu : MOS6502) (ins : Instr) (address : Nat) : MOS6502 :=
  let cpu := { cpu with x := cpu.a }
  let cpu := cpu.testAndSetNegative cpu.x
  cpu.testAndSetZero cpu.x

/-- TAY handler. -/
def MOS6502.tay (cpu : MOS6502) (ins : Instr) (address : Nat) : MOS6502 :=
  let cpu := { cpu with y := cpu.a }
  let cpu := cpu.testAndSetNegative cpu.y
  cpu.testAndSetZero cpu.y

/-- TSX handler: X ← uint8(SP). -/
def MOS6502.tsx (cpu : MOS6502) (ins : Instr) (address : Nat) : MOS6502 :=
  let cpu := { cpu with x := cpu.sp % 256 }
  let cpu := cpu.testAndSetNegative cpu.x
  cpu.testAndSetZero cpu.x

/-- TXA handler. -/
def MOS6502.txa (cpu : MOS6502) (ins : Instr) (address : Nat) : MOS6502 :=
  let cpu := { cpu with a := cpu.x }
  let cpu := cpu.testAndSetNegative cpu.a
  cpu.testAndSetZero cpu.a

/-- TXS handler, as written in the source: `sp = 0x100 + x` (flags
untouched; the stack address computation masks SP back to 8 bits). -/
def MOS6502.txs (cpu : MOS6502) (ins : Instr) (address : Nat) : MOS6502 :=
  { cpu with sp := 0x100 + cpu.x }

/-- TYA handler. -/
def MOS6502.tya (cpu : MOS6502) (ins : Instr) (address : Nat) : MOS6502 :=
  let cpu := { cpu with a := cpu.y }
  let cpu := cpu.testAndSetNegative cpu.a
  cpu.testAndSetZero cpu.a

/-- Go helper `crossedPageBoundary`. -/
def crossedPageBoundary (oldAddress newAddress : Nat) : Bool :=
  oldAddress &&& 0xFF00 != newAddress &&& 0xFF00

/-- Addressing-mode resolver (`instruction.load`).  Returns the effective
address together with the state, since the indexed and post-indexed modes
bump `additionalCycles` on a page crossing. -/
def Instr.load (i : Instr) (cpu : MOS6502) : Nat × MOS6502 :=
  match i.mode with
  | .AM_IMPLIED => (0, cpu)
  | .AM_IMMEDIATE => ((cpu.pc + 1) % 65536, cpu)
  | .AM_ABSOLUTE =>
      let lo := cpu.memory.Read (cpu.pc + 1)
      let hi := cpu.memory.Read (cpu.pc + 2)
      ((hi <<< 8) + lo, cpu)
  | .AM_ZEROPAGE => (cpu.memory.Read (cpu.pc + 1), cpu)
  | .AM_ZEROPAGE_X => ((cpu.memory.Read (cpu.pc + 1) + cpu.x) % 256, cpu)
  | .AM_ZEROPAGE_Y => ((cpu.memory.Read (cpu.pc + 1) + cpu.y) % 256, cpu)
  | .AM_INDEXED_X =>
      let lo := cpu.memory.Read (cpu.pc + 1)
      let hi := cpu.memory.Read (cpu.pc + 2)
      let address := (hi <<< 8) + lo
      let offsetAddress := (address + cpu.x) % 65536
      let cpu := if crossedPageBoundary address offsetAddress then
          { cpu with additionalCycles := (cpu.additionalCycles + 1) % 256 }
        else cpu
      (offsetAddress, cpu)
  | .AM_INDEXED_Y =>
      let lo := cpu.memory.Read (cpu.pc + 1)
      let hi := cpu.memory.Read (cpu.pc + 2)
      let address := (hi <<< 8) + lo
      let offsetAddress := (address + cpu.y) % 65536
      let cpu := if crossedPageBoundary address offsetAddress then
          { cpu with additionalCycles := (cpu.additionalCycles + 1) % 256 }
        else cpu
      (offsetAddress, cpu)
  | .AM_PRE_INDEXED =>
      let address := (cpu.memory.Read (cpu.pc + 1) + cpu.x) % 256
      (cpu.memory.ReadWord address, cpu)
  | .AM_POST_INDEXED =>
      let address := cpu.memory.Read (cpu.pc + 1)
      let lookup := cpu.memory.ReadWord address
      let offsetAddress := (lookup + cpu.y) % 65536
      let cpu := if crossedPageBoundary lookup offsetAddress then
          { cpu with additionalCycles := (cpu.additionalCycles + 1) % 256 }
        else cpu
      (offsetAddress, cpu)
  | .AM_INDIRECT =>
      let lo := cpu.memory.Read (cpu.pc + 1)
      let hi := cpu.memory.Read (cpu.pc + 2)
      let address := (hi <<< 8) + lo
      (cpu.memory.ReadWord address, cpu)
  | .AM_RELATIVE => (cpu.memory.Read (cpu.pc + 1), cpu)

/-- Dispatch by mnemonic tag (the Go table stores the bound handler
method per row; every row pairs a mnemonic with its own handler). -/
def MOS6502.exec (cpu : MOS6502) (i : Instr) (address : Nat) : MOS6502 :=
  match i.opc with
  | .ADC => cpu.adc i address
  | .AND => cpu.and i address
  | .ASL => cpu.asl i address
  | .BCC => cpu.bcc i address
  | .BCS => cpu.bcs i address
  | .BEQ => cpu.beq i address
  | .BIT => cpu.bit i address
  | .BMI => cpu.bmi i address
  | .BNE => cpu.bne i address
  | .BPL => cpu.bpl i address
  | .BRK => cpu.brk i address
  | .BVC => cpu.bvc i address
  | .BVS => cpu.bvs i address
  | .CLC => cpu.clc i address
  | .CLD => cpu.cld i address
  | .CLI => cpu.cli i address
  | .CLV => cpu.clv i address
  | .CMP => cpu.cmp i address
  | .CPX => cpu.cpx i address
  | .CPY => cpu.cpy i address
  | .DEC => cpu.dec i address
  | .DEX => cpu.dex i address
  | .DEY => cpu.dey i address
  | .EOR => cpu.eor i address
  | .INC => cpu.inc i address
  | .INX => cpu.inx i address
  | .INY => cpu.iny i address
  | .JMP => cpu.jmp i address
  | .JSR => cpu.jsr i address
  | .LDA => cpu.lda i address
  | .LDX => cpu.ldx i address
  | .LDY => cpu.ldy i address
  | .LSR => cpu.lsr i address
  | .NOP => cpu.nop i address
  | .ORA => cpu.ora i address
  | .PHA => cpu.pha i address
  | .PHP => cpu.php i address
  | .PLA => cpu.pla i address
  | .PLP => cpu.plp i address
  | .ROL => cpu.rol i address
  | .ROR => cpu.ror i address
  | .RTI => cpu.rti i address
  | .RTS => cpu.rts i address
  | .SBC => cpu.sbc i address
  | .SEC => cpu.sec i address
  | .SED => cpu.sed i address
  | .SEI => cpu.sei i address
  | .STA => cpu.sta i address
  | .STX => cpu.stx i address
  | .STY => cpu.sty i address
  | .TAX => cpu.tax i address
  | .TAY => cpu.tay i address
  | .TSX => cpu.tsx i address
  | .TXA => cpu.txa i address
  | .TXS => cpu.txs i address
  | .TYA => cpu.tya i address

/-- The 256-slot dispatch table (`setupInstructions`): opcode byte to
mnemonic, base cycles, byte size and addressing mode; undefined slots
are `none`. -/
def instructionTable (opcode : Nat) : Option Instr :=
  match opcode with
  | 0x69 => some ⟨.ADC, 2, 2, .AM_IMMEDIATE⟩
  | 0x65 => some ⟨.ADC, 3, 2, .AM_ZEROPAGE⟩
  | 0x75 => some ⟨.ADC, 4, 2, .AM_ZEROPAGE_X⟩
  | 0x6d => some ⟨.ADC, 4, 3, .AM_ABSOLUTE⟩
  | 0x7d => some ⟨.ADC, 4, 3, .AM_INDEXED_X⟩
  | 0x79 => some ⟨.ADC, 4, 3, .AM_INDEXED_Y⟩
  | 0x61 => some ⟨.ADC, 6, 2, .AM_PRE_INDEXED⟩
  | 0x71 => some ⟨.ADC, 5, 2, .AM_POST_INDEXED⟩
  | 0x29 => some ⟨.AND, 2, 2, .AM_IMMEDIATE⟩
  | 0x25 => some ⟨.AND, 3, 2, .AM_ZEROPAGE⟩
  | 0x35 => some ⟨.AND, 4, 2, .AM_ZEROPAGE_X⟩
  | 0x2d => some ⟨.AND, 4, 3, .AM_ABSOLUTE⟩
  | 0x3d => some ⟨.AND, 4, 3, .AM_INDEXED_X⟩
  | 0x39 => some ⟨.AND, 4, 3, .AM_INDEXED_Y⟩
  | 0x21 => some ⟨.AND, 6, 2, .AM_PRE_INDEXED⟩
  | 0x31 => some ⟨.AND, 5, 2, .AM_POST_INDEXED⟩
  | 0x0a => some ⟨.ASL, 2, 1, .AM_IMPLIED⟩
  | 0x06 => some ⟨.ASL, 5, 2, .AM_ZEROPAGE⟩
  | 0x16 => some ⟨.ASL, 6, 2, .AM_ZEROPAGE_X⟩
  | 0x0e => some ⟨.ASL, 6, 3, .AM_ABSOLUTE⟩
  | 0x1e => some ⟨.ASL, 7, 3, .AM_INDEXED_X⟩
  | 0x90 => some ⟨.BCC, 2, 2, .AM_RELATIVE⟩
  | 0xb0 => some ⟨.BCS, 2, 2, .AM_RELATIVE⟩
  | 0xf0 => some ⟨.BEQ, 2, 2, .AM_RELATIVE⟩
  | 0x24 => some ⟨.BIT, 3, 2, .AM_ZEROPAGE⟩
  | 0x2c => some ⟨.BIT, 4, 3, .AM_ABSOLUTE⟩
  | 0x30 => some ⟨.BMI, 2, 2, .AM_RELATIVE⟩
  | 0xd0 => some ⟨.BNE, 2, 2, .AM_RELATIVE⟩
  | 0x10 => some ⟨.BPL, 2, 2, .AM_RELATIVE⟩
  | 0x00 => some ⟨.BRK, 7, 1, .AM_IMPLIED⟩
  | 0x50 => some ⟨.BVC, 2, 2, .AM_RELATIVE⟩
  | 0x70 => some ⟨.BVS, 2, 2, .AM_RELATIVE⟩
  | 0x18 => some ⟨.CLC, 2, 1, .AM_IMPLIED⟩
  | 0xd8 => some ⟨.CLD, 2, 1, .AM_IMPLIED⟩
  | 0x58 => some ⟨.CLI, 2, 1, .AM_IMPLIED⟩
  | 0xb8 => some ⟨.CLV, 2, 1, .AM_IMPLIED⟩
  | 0xc9 => some ⟨.CMP, 2, 2, .AM_IMMEDIATE⟩
  | 0xc5 => some ⟨.CMP, 3, 2, .AM_ZEROPAGE⟩
  | 0xd5 => some ⟨.CMP, 4, 2, .AM_ZEROPAGE_X⟩
  | 0xcd => some ⟨.CMP, 4, 3, .AM_ABSOLUTE⟩
  | 0xdd => some ⟨.CMP, 4, 3, .AM_INDEXED_X⟩
  | 0xd9 => some ⟨.CMP, 4, 3, .AM_INDEXED_Y⟩
  | 0xc1 => some ⟨.CMP, 6, 2, .AM_PRE_INDEXED⟩
  | 0xd1 => some ⟨.CMP, 5, 2, .AM_POST_INDEXED⟩
  | 0xe0 => some ⟨.CPX, 2, 2, .AM_IMMEDIATE⟩
  | 0xe4 => some ⟨.CPX, 3, 2, .AM_ZEROPAGE⟩
  | 0xec => some ⟨.CPX, 4, 3, .AM_ABSOLUTE⟩
  | 0xc0 => some ⟨.CPY, 2, 2, .AM_IMMEDIATE⟩
  | 0xc4 => some ⟨.CPY, 3, 2, .AM_ZEROPAGE⟩
  | 0xcc => some ⟨.CPY, 4, 3, .AM_ABSOLUTE⟩
  | 0xc6 => some ⟨.DEC, 5, 2, .AM_ZEROPAGE⟩
  | 0xd6 => some ⟨.DEC, 6, 2, .AM_ZEROPAGE_X⟩
  | 0xce => some ⟨.DEC, 6, 3, .AM_ABSOLUTE⟩
  | 0xca => some ⟨.DEX, 2, 1, .AM_IMPLIED⟩
  | 0x88 => some ⟨.DEY, 2, 1, .AM_IMPLIED⟩
  | 0x49 => some ⟨.EOR, 2, 2, .AM_IMMEDIATE⟩
  | 0x45 => some ⟨.EOR, 3, 2, .AM_ZEROPAGE⟩
  | 0x55 => some ⟨.EOR, 4, 2, .AM_ZEROPAGE_X⟩
  | 0x4d => some ⟨.EOR, 4, 3, .AM_ABSOLUTE⟩
  | 0x5d => some ⟨.EOR, 4, 3, .AM_INDEXED_X⟩
  | 0x59 => some ⟨.EOR, 4, 3, .AM_INDEXED_Y⟩
  | 0x41 => some ⟨.EOR, 6, 2, .AM_PRE_INDEXED⟩
  | 0x51 => some ⟨.EOR, 5, 2, .AM_POST_INDEXED⟩
  | 0xe6 => some ⟨.INC, 5, 2, .AM_ZEROPAGE⟩
  | 0xf6 => some ⟨.INC, 6, 2, .AM_ZEROPAGE_X⟩
  | 0xee => some ⟨.INC, 6, 3, .AM_ABSOLUTE⟩
  | 0xfe => some ⟨.INC, 7, 3, .AM_INDEXED_X⟩
  | 0xe8 => some ⟨.INX, 2, 1, .AM_IMPLIED⟩
  | 0xc8 => some ⟨.INY, 2, 1, .AM_IMPLIED⟩
  | 0x4c => some ⟨.JMP, 3, 3, .AM_ABSOLUTE⟩
  | 0x6c => some ⟨.JMP, 5, 3, .AM_INDIRECT⟩
  | 0x20 => some ⟨.JSR, 6, 3, .AM_ABSOLUTE⟩
  | 0xa9 => some ⟨.LDA, 2, 2, .AM_IMMEDIATE⟩
  | 0xa5 => some ⟨.LDA, 3, 2, .AM_ZEROPAGE⟩
  | 0xb5 => some ⟨.LDA, 4, 2, .AM_ZEROPAGE_X⟩
  | 0xad => some ⟨.LDA, 4, 3, .AM_ABSOLUTE⟩
  | 0xbd => some ⟨.LDA, 4, 3, .AM_INDEXED_X⟩
  | 0xb9 => some ⟨.LDA, 4, 3, .AM_INDEXED_Y⟩
  | 0xa1 => some ⟨.LDA, 6, 2, .AM_PRE_INDEXED⟩
  | 0xb1 => some ⟨.LDA, 5, 2, .AM_POST_INDEXED⟩
  | 0xa2 => some ⟨.LDX, 2, 2, .AM_IMMEDIATE⟩
  | 0xa6 => some ⟨.LDX, 3, 2, .AM_ZEROPAGE⟩
  | 0xb6 => some ⟨.LDX, 4, 2, .AM_ZEROPAGE_Y⟩
  | 0xae => some ⟨.LDX, 4, 3, .AM_ABSOLUTE⟩
  | 0xbe => some ⟨.LDX, 4, 3, .AM_INDEXED_Y⟩
  | 0xa0 => some ⟨.LDY, 2, 2, .AM_IMMEDIATE⟩
  | 0xa4 => some ⟨.LDY, 3, 2, .AM_ZEROPAGE⟩
  | 0xb4 => some ⟨.LDY, 4, 2, .AM_ZEROPAGE_Y⟩
  | 0xac => some ⟨.LDY, 4, 3, .AM_ABSOLUTE⟩
  | 0xbc => some ⟨.LDY, 4, 3, .AM_INDEXED_Y⟩
  | 0x4a => some ⟨.LSR, 2, 1, .AM_IMPLIED⟩
  | 0x46 => some ⟨.LSR, 5, 2, .AM_ZEROPAGE⟩
  | 0x56 => some ⟨.LSR, 6, 2, .AM_ZEROPAGE_X⟩
  | 0x4e => some ⟨.LSR, 6, 3, .AM_ABSOLUTE⟩
  | 0x5e => some ⟨.LSR, 7, 3, .AM_INDEXED_X⟩
  | 0xea => some ⟨.NOP, 2, 1, .AM_IMPLIED⟩
  | 0x09 => some ⟨.ORA, 2, 2, .AM_IMMEDIATE⟩
  | 0x05 => some ⟨.ORA, 3, 2, .AM_ZEROPAGE⟩
  | 0x15 => some ⟨.ORA, 4, 2, .AM_ZEROPAGE_X⟩
  | 0x0d => some ⟨.ORA, 4, 3, .AM_ABSOLUTE⟩
  | 0x1d => some ⟨.ORA, 4, 3, .AM_INDEXED_X⟩
  | 0x19 => some ⟨.ORA, 4, 3, .AM_INDEXED_Y⟩
  | 0x01 => some ⟨.ORA, 6, 2, .AM_PRE_INDEXED⟩
  | 0x11 => some ⟨.ORA, 5, 2, .AM_POST_INDEXED⟩
  | 0x48 => some ⟨.PHA, 3, 1, .AM_IMPLIED⟩
  | 0x08 => some ⟨.PHP, 3, 1, .AM_IMPLIED⟩
  | 0x68 => some ⟨.PLA, 4, 1, .AM_IMPLIED⟩
  | 0x28 => some ⟨.PLP, 4, 1, .AM_IMPLIED⟩
  | 0x2a => some ⟨.ROL, 2, 1, .AM_IMPLIED⟩
  | 0x26 => some ⟨.ROL, 5, 2, .AM_ZEROPAGE⟩
  | 0x36 => some ⟨.ROL, 6, 2, .AM_ZEROPAGE_X⟩
  | 0x2e => some ⟨.ROL, 6, 3, .AM_ABSOLUTE⟩
  | 0x3e => some ⟨.ROL, 7, 3, .AM_INDEXED_X⟩
  | 0x6a => some ⟨.ROR, 2, 1, .AM_IMPLIED⟩
  | 0x66 => some ⟨.ROR, 5, 2, .AM_ZEROPAGE⟩
  | 0x76 => some ⟨.ROR, 6, 2, .AM_ZEROPAGE_X⟩
  | 0x6e => some ⟨.ROR, 6, 3, .AM_ABSOLUTE⟩
  | 0x7e => some ⟨.ROR, 7, 3, .AM_INDEXED_X⟩
  | 0x40 => some ⟨.RTI, 6, 1, .AM_IMPLIED⟩
  | 0x60 => some ⟨.RTS, 6, 1, .AM_IMPLIED⟩
  | 0xe9 => some ⟨.SBC, 2, 2, .AM_IMMEDIATE⟩
  | 0xe5 => some ⟨.SBC, 3, 2, .AM_ZEROPAGE⟩
  | 0xf5 => some ⟨.SBC, 4, 2, .AM_ZEROPAGE_X⟩
  | 0xed => some ⟨.SBC, 4, 3, .AM_ABSOLUTE⟩
  | 0xfd => some ⟨.SBC, 4, 3, .AM_INDEXED_X⟩
  | 0xf9 => some ⟨.SBC, 4, 3, .AM_INDEXED_Y⟩
  | 0xe1 => some ⟨.SBC, 6, 2, .AM_PRE_INDEXED⟩
  | 0xf1 => some ⟨.SBC, 5, 2, .AM_POST_INDEXED⟩
  | 0x38 => some ⟨.SEC, 2, 1, .AM_IMPLIED⟩
  | 0xf8 => some ⟨.SED, 2, 1, .AM_IMPLIED⟩
  | 0x78 => some ⟨.SEI, 2, 1, .AM_IMPLIED⟩
  | 0x85 => some ⟨.STA, 3, 2, .AM_ZEROPAGE⟩
  | 0x95 => some ⟨.STA, 4, 2, .AM_ZEROPAGE_X⟩
  | 0x8d => some ⟨.STA, 4, 3, .AM_ABSOLUTE⟩
  | 0x9d => some ⟨.STA, 5, 3, .AM_INDEXED_X⟩
  | 0x99 => some ⟨.STA, 5, 3, .AM_INDEXED_Y⟩
  | 0x81 => some ⟨.STA, 6, 2, .AM_PRE_INDEXED⟩
  | 0x91 => some ⟨.STA, 6, 2, .AM_POST_INDEXED⟩
  | 0x86 => some ⟨.STX, 3, 2, .AM_ZEROPAGE⟩
  | 0x96 => some ⟨.STX, 4, 2, .AM_ZEROPAGE_Y⟩
  | 0x8e => some ⟨.STX, 4, 3, .AM_ABSOLUTE⟩
  | 0x84 => some ⟨.STY, 3, 2, .AM_ZEROPAGE⟩
  | 0x94 => some ⟨.STY, 4, 2, .AM_ZEROPAGE_X⟩
  | 0x8c => some ⟨.STY, 4, 3, .AM_ABSOLUTE⟩
  | 0xaa => some ⟨.TAX, 2, 1, .AM_IMPLIED⟩
  | 0xa8 => some ⟨.TAY, 2, 1, .AM_IMPLIED⟩
  | 0xba => some ⟨.TSX, 2, 1, .AM_IMPLIED⟩
  | 0x8a => some ⟨.TXA, 2, 1, .AM_IMPLIED⟩
  | 0x9a => some ⟨.TXS, 2, 1, .AM_IMPLIED⟩
  | 0x98 => some ⟨.TYA, 2, 1, .AM_IMPLIED⟩
  | _ => none

/-- Go `Reset`: reinitialise the registers, flags, PC and memory
reference.  Note that `halt`, `TotalCycles`, `additionalCycles` and the
debug fields are not touched. -/
def MOS6502.Reset (cpu : MOS6502) (memory : Memory) : MOS6502 :=
  { cpu with a := 0xaa, x := 0x0, y := 0x0, sp := StackTop,
             p := 0b00110100,
             pc := memory.ReadWord 0xfffc,
             memory := memory, wait := 0 }

/-- Go `Cycle` (the fetch-decode-execute step of `cpu.go`): stop-address
check, opcode fetch, table lookup, operand resolution, trap detection,
PC advance, cycle accounting, handler execution.  Note the order: the
cycle counter is updated before the handler runs.  The Debug branch of
the Go code only emits a trace line and mutates no state, so it has no
counterpart here. -/
def MOS6502.Cycle (cpu : MOS6502) : MOS6502 :=
  if cpu.pc = cpu.StopOnPC then { cpu with halt := HaltType.HaltSuccess }
  else
    let cpu := { cpu with additionalCycles := 0 }
    let opcode := cpu.memory.Read cpu.pc
    match instructionTable opcode with
    | none => { cpu with halt := HaltType.HaltUnknownInstruction }
    | some i =>
        let la := i.load cpu
        let address := la.1
        let cpu := la.2
        let cpu2 := if cpu.TrapDetector then
            { cpu with trapDetector := cpu.trapDetector.push cpu.pc }
          else cpu
        if cpu.TrapDetector && cpu2.trapDetector.hastrap then
          { cpu2 with halt := HaltType.HaltTrap }
        else
          let cpu3 := { cpu2 with pc := (cpu2.pc + i.size) % 65536 }
          let cpu4 := { cpu3 with
            TotalCycles := cpu3.TotalCycles + (i.cycles + cpu3.additionalCycles) % 256 }
          cpu4.exec i address

/-! Flag-bit lemmas used throughout the claim proofs. -/

theorem isSet_two_pow (p i : Nat) : flags.isSet p (2 ^ i) = p.testBit i := by
  simp only [flags.isSet, Nat.and_two_pow]
  cases h : p.testBit i
  · simp
  · simp only [Bool.toNat_true, one_mul, bne_iff_ne, ne_eq]
    simp [Nat.pow_eq_zero]

theorem testBit_flags_set (p b : Nat) (v : Bool) (i : Nat) (hi : i < 8) :
    (flags.set p b v).testBit i = if b.testBit i then v else p.testBit i := by
  cases v with
  | false =>
      have hs : flags.set p b false = p &&& (255 ^^^ b) := by simp [flags.set]
      have h255 : (255 : Nat) = 2 ^ 8 - 1 := by norm_num
      rw [hs, Nat.testBit_land, Nat.testBit_xor, h255, Nat.testBit_two_pow_sub_one]
      cases hb : b.testBit i <;> simp [hi]
  | true =>
      have hs : flags.set p b true = p ||| b := by simp [flags.set]
      rw [hs, Nat.testBit_lor]
      cases hb : b.testBit i <;> simp

theorem testBit_flags_set_pow (p j : Nat) (v : Bool) (i : Nat) (hi : i < 8) :
    (flags.set p (2 ^ j) v).testBit i = if j = i then v else p.testBit i := by
  rw [testBit_flags_set p _ v i hi, Nat.testBit_two_pow]
  by_cases h : j = i <;> simp [h]

theorem P_Carry_eq : P_Carry = 2 ^ 0 := rfl

theorem P_Zero_eq : P_Zero = 2 ^ 1 := rfl

theorem P_InterruptDisable_eq : P_InterruptDisable = 2 ^ 2 := rfl

theorem P_Decimal_eq : P_Decimal = 2 ^ 3 := rfl

theorem P_Break_eq : P_Break = 2 ^ 4 := rfl

theorem P_Reserved_eq : P_Reserved = 2 ^ 5 := rfl

theorem P_Overflow_eq : P_Overflow = 2 ^ 6 := rfl

theorem P_Negative_eq : P_Negative = 2 ^ 7 := rfl

theorem isSet_P_Carry (p : Nat) : flags.isSet p P_Carry = p.testBit 0 := by
  rw [P_Carry_eq, isSet_two_pow]

theorem isSet_P_Zero (p : Nat) : flags.isSet p P_Zero = p.testBit 1 := by
  rw [P_Zero_eq, isSet_two_pow]

theorem isSet_P_Break (p : Nat) : flags.isSet p P_Break = p.testBit 4 := by
  rw [P_Break_eq, isSet_two_pow]

theorem isSet_P_Reserved (p : Nat) : flags.isSet p P_Reserved = p.testBit 5 := by
  rw [P_Reserved_eq, isSet_two_pow]

theorem isSet_P_Overflow (p : Nat) : flags.isSet p P_Overflow = p.testBit 6 := by
  rw [P_Overflow_eq, isSet_two_pow]

theorem isSet_P_Negative (p : Nat) : flags.isSet p P_Negative = p.testBit 7 := by
  rw [P_Negative_eq, isSet_two_pow]

theorem beq_and_two_pow (n i : Nat) : (n &&& 2 ^ i == 2 ^ i) = n.testBit i := by
  rw [Nat.and_two_pow]
  have h2 : (2 : Nat) ^ i ≠ 0 := by positivity
  cases h : n.testBit i
  · simp [Ne.symm h2]
  · simp

theorem beq_and_two_pow_ne_zero (n i : Nat) :
    (n &&& 2 ^ i == 2 ^ i) = decide (n &&& 2 ^ i ≠ 0) := by
  rw [Nat.and_two_pow]
  have h2 : (2 : Nat) ^ i ≠ 0 := by positivity
  cases h : n.testBit i
  · simp [Ne.symm h2]
  · simp [h2]

theorem testBit8_eq (sum : Nat) (h : sum < 512) :
    sum.testBit 8 = decide (255 < sum) := by
  rw [Nat.testBit_to_div_mod]
  have h256 : (2 : Nat) ^ 8 = 256 := by norm_num
  rw [h256]
  rcases Nat.lt_or_ge sum 256 with h1 | h1
  · have h2 : sum / 256 = 0 := Nat.div_eq_of_lt h1
    have h3 : ¬ 255 < sum := by omega
    simp [h2, h3]
  · have h2 : sum / 256 = 1 := by omega
    have h3 : 255 < sum := by omega
    simp [h2, h3]

/-- Claim C2: for every state with a byte-valued accumulator, operand
byte M and carry C, the ADC handler computes the 9-bit sum A + M + C;
the new accumulator is its low 8 bits, the new carry flag is bit 8 of
it, V equals `((A^res) & (M^res) & 0x80) != 0`, Z holds iff the result
byte is 0, and N is bit 7 of the result byte. -/
theorem adc_nine_bit_sum (st : MOS6502) (i : Instr) (address : Nat)
    (ha : st.a < 256) :
    (st.adc i address).a
        = (st.a + st.memory.Read address
            + (if flags.isSet st.p P_Carry then 1 else 0)) % 256 ∧
    flags.isSet (st.adc i address).p P_Carry
        = (st.a + st.memory.Read address
            + (if flags.isSet st.p P_Carry then 1 else 0)).testBit 8 ∧
    flags.isSet (st.adc i address).p P_Overflow
        = decide (((st.a ^^^ (st.adc i address).a)
            &&& (st.memory.Read address ^^^ (st.adc i address).a) &&& 0x80) ≠ 0) ∧
    (flags.isSet (st.adc i address).p P_Zero = true ↔ (st.adc i address).a = 0) ∧
    flags.isSet (st.adc i address).p P_Negative = ((st.adc i address).a).testBit 7 := by
  have hm : st.memory.Read address < 256 := by
    simp only [Memory.Read]
    omega
  set c : Nat := if flags.isSet st.p P_Carry then 1 else 0 with hc
  have hcle : c ≤ 1 := by
    rw [hc]; split <;> omega
  set sum : Nat := st.a + st.memory.Read address + c with hsum
  have hlt : sum < 512 := by omega
  have h255 : (255 : Nat) = 2 ^ 8 - 1 := by norm_num
  have hand : sum &&& 255 = sum % 256 := by
    rw [h255, Nat.and_pow_two_sub_one_eq_mod]
  have hres : (st.adc i address).a = sum % 256 := by
    simp only [MOS6502.adc, MOS6502.testAndSetCarry, MOS6502.testAndSetNegative,
      MOS6502.testAndSetZero, MOS6502.testAndSetOverflow, MOS6502.setP]
    rw [← hc, ← hsum]
    exact hand
  have hp : (st.adc i address).p
      = flags.set (flags.set (flags.set (flags.set st.p P_Carry
          (decide (0xff < sum))) P_Negative ((sum &&& 0xff) &&& 0x80 == 0x80))
          P_Zero (sum &&& 0xff == 0)) P_Overflow
          ((st.a ^^^ (sum &&& 0xff)) &&& (st.memory.Read address ^^^ (sum &&& 0xff)) &&& 0x80 == 0x80) := by
    simp only [MOS6502.adc, MOS6502.testAndSetCarry, MOS6502.testAndSetNegative,
      MOS6502.testAndSetZero, MOS6502.testAndSetOverflow, MOS6502.setP]
  refine ⟨hres, ?_, ?_, ?_, ?_⟩
  · rw [hp, isSet_P_Carry]
    simp only [P_Carry_eq, P_Negative_eq, P_Zero_eq, P_Overflow_eq]
    rw [testBit_flags_set_pow _ _ _ _ (by norm_num),
        testBit_flags_set_pow _ _ _ _ (by norm_num),
        testBit_flags_set_pow _ _ _ _ (by norm_num),
        testBit_flags_set_pow _ _ _ _ (by norm_num)]
    norm_num
    rw [testBit8_eq sum hlt]
  · rw [hp, isSet_P_Overflow]
    simp only [P_Carry_eq, P_Negative_eq, P_Zero_eq, P_Overflow_eq]
    rw [testBit_flags_set_pow _ _ _ _ (by norm_num)]
    norm_num
    rw [hres, hand]
    have h128 : (0x80 : Nat) = 2 ^ 7 := by norm_num
    rw [h128, beq_and_two_pow_ne_zero]
    simp
  · rw [hp, isSet_P_Zero]
    simp only [P_Carry_eq, P_Negative_eq, P_Zero_eq, P_Overflow_eq]
    rw [testBit_flags_set_pow _ _ _ _ (by norm_num),
        testBit_flags_set_pow _ _ _ _ (by norm_num)]
    norm_num
    rw [hres, hand]
  · rw [hp, isSet_P_Negative]
    simp only [P_Carry_eq, P_Negative_eq, P_Zero_eq, P_Overflow_eq]
    rw [testBit_flags_set_pow _ _ _ _ (by norm_num),
        testBit_flags_set_pow _ _ _ _ (by norm_num),
        testBit_flags_set_pow _ _ _ _ (by norm_num)]
    norm_num
    rw [hres, hand]
    have h128 : (0x80 : Nat) = 2 ^ 7 := by norm_num
    rw [h128, beq_and_two_pow]

/-! Concrete states used as failing inputs, counterexamples and
witnesses. -/

/-- A concrete all-zero processor state with SP at the top of the stack. -/
def base : MOS6502 :=
  { a := 0, x := 0, y := 0, sp := 0xff, pc := 0, p := 0, wait := 0,
    memory := fun _ => 0, halt := .Continue, Debug := false,
    TrapDetector := false, trapDetector := { buffer := fun _ => 0, index := 0 },
    additionalCycles := 0, TotalCycles := 0, StopOnPC := 0 }

/-- A throwaway table entry for direct handler calls whose handlers
ignore the instruction argument. -/
def impliedInstr : Instr := ⟨.NOP, 2, 1, .AM_IMPLIED⟩

/-- State for the SBC test input of `TestSBC` (accumulator 3, carry set,
operand byte 1 everywhere). -/
def sbcState : MOS6502 := { base with a := 0x03, p := 1, memory := fun _ => 0x01 }

/-- Same state with the operand byte complemented (`~0x01 = 0xfe`). -/
def sbcStateC : MOS6502 := { base with a := 0x03, p := 1, memory := fun _ => 0xfe }

/-- Claim C1 (code bug): at the repository's own `TestSBC` input
(A = 3, M = 1, carry set) the SBC handler produces accumulator 3 while
the ADC handler on the bitwise complement of M produces 2 — the claimed
equivalence `SBC(M) = ADC(~M)` fails, and the test expects 2. -/
theorem sbc_differs_from_adc_complement :
    (sbcState.sbc impliedInstr 0).a = 0x03 ∧
    (sbcStateC.adc impliedInstr 0).a = 0x02 ∧
    (sbcState.sbc impliedInstr 0).a ≠ (sbcStateC.adc impliedInstr 0).a := by
  refine ⟨by decide, by decide, by decide⟩

/-- State with a taken BCC (carry clear) at PC `0xDD00`, branch offset
`0x10`, stop address 1 so the stop check does not fire. -/
def bccState : MOS6502 :=
  { base with
    pc := 0xdd00, StopOnPC := 1,
    memory := fun a => if a = 0xdd00 then 0x90 else if a = 0xdd01 then 0x10 else 0 }

/-- Claim C3 (code bug): a taken same-page BCC adds only the base 2
cycles to the total counter, not the claimed 3 — `Cycle` adds
`additionalCycles` to `TotalCycles` before the branch handler records
its surcharge (the surcharge is visible in `additionalCycles` but never
counted). -/
theorem branch_taken_adds_only_base_cycles :
    (bccState.Cycle).pc = 0xdd12 ∧
    (bccState.Cycle).TotalCycles = bccState.TotalCycles + 2 ∧
    (bccState.Cycle).additionalCycles = 1 := by
  refine ⟨by decide, by decide, by decide⟩

/-- State for the LSR test input of `TestLSR` (memory byte `0x55` at the
zero-page address `0x42`). -/
def lsrState : MOS6502 := { base with memory := fun a => if a = 0x42 then 0x55 else 0 }

/-- The LSR zero-page table entry. -/
def lsrZeropage : Instr := ⟨.LSR, 5, 2, .AM_ZEROPAGE⟩

/-- Claim C4 (code bug): LSR of the byte 0x55 stores 0x2A and forces
N to 0 as claimed, but leaves the carry flag clear even though bit 0 of
the old value is 1 — the handler tests the already-shifted value, which
is at most 0x7F, so C is always cleared (the repository's `TestLSR`
expects C = 1 here). -/
theorem lsr_clears_carry_at_test_input :
    ((lsrState.lsr lsrZeropage 0x42).memory 0x42 = 0x2a) ∧
    flags.isSet (lsrState.lsr lsrZeropage 0x42).p P_Negative = false ∧
    flags.isSet (lsrState.lsr lsrZeropage 0x42).p P_Zero = false ∧
    ((0x55 : Nat) &&& 1 = 1) ∧
    flags.isSet (lsrState.lsr lsrZeropage 0x42).p P_Carry = false := by
  refine ⟨by decide, by decide, by decide, by decide, by decide⟩

/-- Claim C5 (code bug): PHP followed by PLP from P = 0 ends with
P = 0x30 — the B flag ends SET, not cleared as claimed, because `plp`
only forces bit 5 and keeps the pushed B bit (the repository's
`TestPLP` expects B forced to 0); SP is net unchanged. -/
theorem php_plp_leaves_break_set :
    ((base.php impliedInstr 0).plp impliedInstr 0).p = 0x30 ∧
    flags.isSet ((base.php impliedInstr 0).plp impliedInstr 0).p P_Break = true ∧
    flags.isSet base.p P_Break = false ∧
    ((base.php impliedInstr 0).plp impliedInstr 0).sp = base.sp := by
  refine ⟨by decide, by decide, by decide, by decide⟩

/-- State with `JMP ($02FF)` at PC `0x4000`: the pointer low byte is
`0xFF`, `$02FF = 0x34`, `$0200 = 0x12` (same-page wrap target) and
`$0300 = 0x56` (next-page byte). -/
def jmpIndState : MOS6502 :=
  { base with
    pc := 0x4000, StopOnPC := 1,
    memory := fun a =>
      if a = 0x4000 then 0x6c else if a = 0x4001 then 0xff else
      if a = 0x4002 then 0x02 else if a = 0x02ff then 0x34 else
      if a = 0x0200 then 0x12 else if a = 0x0300 then 0x56 else 0 }

/-- Claim C6 counterexample: `JMP ($02FF)` resolves to 0x5634 — the
high byte is read from $0300 (the next page), not from $0200 as the
claimed same-page wrap (which would give 0x1234) requires. -/
theorem jmp_indirect_page_wrap_counterexample :
    (jmpIndState.Cycle).pc = 0x5634 ∧ (0x5634 : Nat) ≠ 0x34 ||| (0x12 <<< 8) := by
  refine ⟨by decide, by decide⟩

/-- Claim C6, amended: for an indirect JMP whose pointer has low byte
0xFF, the resolved target's low byte is read from the pointer address
and its high byte from `ptr+1` with 16-bit wrap — i.e. from the next
page (from $0000 when the pointer is $FFFF), not from the same page. -/
theorem jmp_indirect_reads_next_page (st : MOS6502) (i : Instr)
    (hmode : i.mode = AddressMode.AM_INDIRECT)
    (hlow : st.memory.Read (st.pc + 1) = 0xff) :
    ((i.load st).2.jmp i (i.load st).1).pc
      = st.memory.Read ((st.memory.Read (st.pc + 2) <<< 8) + st.memory.Read (st.pc + 1))
        + 256 * st.memory.Read
            (((st.memory.Read (st.pc + 2) <<< 8) + st.memory.Read (st.pc + 1) + 1) % 65536) := by
  simp only [Instr.load, hmode, MOS6502.jmp, Memory.ReadWord, Nat.shiftLeft_eq]
  have hr : ∀ (m : Memory) (ad : Nat), m.Read (ad % 65536) = m.Read ad := by
    intro m ad
    simp [Memory.Read, Nat.mod_mod_of_dvd]
  rw [hr]
  ring_nf

theorem jmp_indirect_reads_next_page_witness :
    jmpIndState.memory.Read (jmpIndState.pc + 1) = 0xff ∧
    (((⟨.JMP, 5, 3, .AM_INDIRECT⟩ : Instr).load jmpIndState).2.jmp
        ⟨.JMP, 5, 3, .AM_INDIRECT⟩
        ((⟨.JMP, 5, 3, .AM_INDIRECT⟩ : Instr).load jmpIndState).1).pc
      = jmpIndState.memory.Read
          ((jmpIndState.memory.Read (jmpIndState.pc + 2) <<< 8)
            + jmpIndState.memory.Read (jmpIndState.pc + 1))
        + 256 * jmpIndState.memory.Read
            (((jmpIndState.memory.Read (jmpIndState.pc + 2) <<< 8)
              + jmpIndState.memory.Read (jmpIndState.pc + 1) + 1) % 65536) :=
  ⟨by decide,
   jmp_indirect_reads_next_page jmpIndState ⟨.JMP, 5, 3, .AM_INDIRECT⟩ rfl (by decide)⟩

/-- A state in a halted, cycle-burning configuration, used to show what
`Reset` does not clear. -/
def trappedState : MOS6502 :=
  { base with halt := .HaltTrap, TotalCycles := 7, pc := 0x123 }

/-- Claim C7 counterexample: `Reset` from a state halted with HaltTrap
and 7 total cycles leaves halt = HaltTrap and TotalCycles = 7, not
Continue and 0 as claimed. -/
theorem reset_keeps_halt_and_cycles_counterexample :
    (trappedState.Reset (fun _ => 0)).halt = HaltType.HaltTrap ∧
    (trappedState.Reset (fun _ => 0)).TotalCycles = 7 := by
  refine ⟨by decide, by decide⟩

/-- Claim C7, amended: after `Reset(memory)`, A = 0xAA, X = 0, Y = 0,
SP = 0xFF, P = 0b00110100, PC is the little-endian word at 0xFFFC and
wait = 0; the halt state and total cycle counter are left unchanged
(they are Continue and 0 only for a freshly constructed CPU). -/
theorem reset_spec_amended (st : MOS6502) (memory : Memory) :
    (st.Reset memory).a = 0xaa ∧
    (st.Reset memory).x = 0 ∧
    (st.Reset memory).y = 0 ∧
    (st.Reset memory).sp = 0xff ∧
    (st.Reset memory).p = 0b00110100 ∧
    (st.Reset memory).pc = memory.ReadWord 0xfffc ∧
    (st.Reset memory).wait = 0 ∧
    (st.Reset memory).halt = st.halt ∧
    (st.Reset memory).TotalCycles = st.TotalCycles := by
  refine ⟨rfl, rfl, rfl, rfl, rfl, rfl, rfl, rfl, rfl⟩

/-- Claim C8 counterexample: with StopOnPC = 0 and PC = 0, `Cycle`
halts with HaltSuccess and executes no instruction — the zero value
does not disable the stop check as claimed. -/
theorem cycle_halt_success_at_stop_zero :
    base.StopOnPC = 0 ∧ base.pc = 0 ∧
    (base.Cycle).halt = HaltType.HaltSuccess ∧
    (base.Cycle).pc = base.pc ∧
    (base.Cycle).TotalCycles = base.TotalCycles := by
  refine ⟨rfl, rfl, by decide, by decide, by decide⟩

/-- Byte-read variant of `lda` used to state the refinement claim C10: a
single `Read` at the effective address instead of the 16-bit
`ReadWord`. -/
def MOS6502.ldaByte (cpu : MOS6502) (ins : Instr) (address : Nat) : MOS6502 :=
  let value := cpu.memory.Read address
  let cpu := { cpu with a := value }
  let cpu := cpu.testAndSetNegative cpu.a
  cpu.testAndSetZero cpu.a

/-- Byte-read variant of `ldx`. -/
def MOS6502.ldxByte (cpu : MOS6502) (ins : Instr) (address : Nat) : MOS6502 :=
  let value := cpu.memory.Read address
  let cpu := { cpu with x := value }
  let cpu := cpu.testAndSetNegative cpu.x
  cpu.testAndSetZero cpu.x

/-- Byte-read variant of `ldy`. -/
def MOS6502.ldyByte (cpu : MOS6502) (ins : Instr) (address : Nat) : MOS6502 :=
  let value := cpu.memory.Read address
  let cpu := { cpu with y := value }
  let cpu := cpu.testAndSetNegative cpu.y
  cpu.testAndSetZero cpu.y

theorem ReadWord_mod_256 (m : Memory) (address : Nat) :
    m.ReadWord address % 256 = m.Read address := by
  have h28 : (2 : Nat) ^ 8 = 256 := by norm_num
  simp only [Memory.ReadWord, Memory.Read, Nat.shiftLeft_eq, h28]
  omega

/-- Claim C10: each load handler (`lda`, `ldx`, `ldy`) is extensionally
equal to the variant that performs a single byte `Read` at the
effective address — truncating the 16-bit `ReadWord` to its low byte
yields exactly `memory[a]`, for every state and every address
(including 0xFFFF, where the word read wraps to 0x0000). -/
theorem load_handlers_single_byte_equiv (st : MOS6502) (i : Instr) (address : Nat) :
    st.lda i address = st.ldaByte i address ∧
    st.ldx i address = st.ldxByte i address ∧
    st.ldy i address = st.ldyByte i address := by
  refine ⟨?_, ?_, ?_⟩
  · simp only [MOS6502.lda, MOS6502.ldaByte]
    rw [ReadWord_mod_256]
  · simp only [MOS6502.ldx, MOS6502.ldxByte]
    rw [ReadWord_mod_256]
  · simp only [MOS6502.ldy, MOS6502.ldyByte]
    rw [ReadWord_mod_256]

theorem load_snd_p (i : Instr) (st : MOS6502) : (i.load st).2.p = st.p := by
  cases h : i.mode <;>
    simp [Instr.load, h, apply_ite (fun s : MOS6502 => s.p)]

theorem load_snd_halt (i : Instr) (st : MOS6502) : (i.load st).2.halt = st.halt := by
  cases h : i.mode <;>
    simp [Instr.load, h, apply_ite (fun s : MOS6502 => s.halt)]

theorem exec_halt (st : MOS6502) (i : Instr) (address : Nat) :
    (st.exec i address).halt = st.halt := by
  cases h : i.opc <;>
    simp [MOS6502.exec, h, MOS6502.adc, MOS6502.and, MOS6502.asl, MOS6502.bcc,
      MOS6502.bcs, MOS6502.beq, MOS6502.bit, MOS6502.bmi, MOS6502.bne,
      MOS6502.bpl, MOS6502.brk, MOS6502.bvc, MOS6502.bvs, MOS6502.clc,
      MOS6502.cld, MOS6502.cli, MOS6502.clv, MOS6502.cmp, MOS6502.cpx,
      MOS6502.cpy, MOS6502.dec, MOS6502.dex, MOS6502.dey, MOS6502.eor,
      MOS6502.inc, MOS6502.inx, MOS6502.iny, MOS6502.jmp, MOS6502.jsr,
      MOS6502.lda, MOS6502.ldx, MOS6502.ldy, MOS6502.lsr, MOS6502.nop,
      MOS6502.ora, MOS6502.pha, MOS6502.php, MOS6502.pla, MOS6502.plp,
      MOS6502.rol, MOS6502.ror, MOS6502.rti, MOS6502.rts, MOS6502.sbc,
      MOS6502.sec, MOS6502.sed, MOS6502.sei, MOS6502.sta, MOS6502.stx,
      MOS6502.sty, MOS6502.tax, MOS6502.tay, MOS6502.tsx, MOS6502.txa,
      MOS6502.txs, MOS6502.tya, MOS6502.branch, MOS6502.push, MOS6502.pop,
      MOS6502.setP, MOS6502.testAndSetNegative, MOS6502.testAndSetZero,
      MOS6502.testAndSetCarry, MOS6502.testAndSetOverflow,
      apply_ite (fun s : MOS6502 => s.halt)]

theorem testBit5_set_1 (p : Nat) (v : Bool) : (flags.set p 1 v).testBit 5 = p.testBit 5 := by
  simpa using testBit_flags_set_pow p 0 v 5 (by norm_num)

theorem testBit5_set_2 (p : Nat) (v : Bool) : (flags.set p 2 v).testBit 5 = p.testBit 5 := by
  simpa using testBit_flags_set_pow p 1 v 5 (by norm_num)

theorem testBit5_set_4 (p : Nat) (v : Bool) : (flags.set p 4 v).testBit 5 = p.testBit 5 := by
  simpa using testBit_flags_set_pow p 2 v 5 (by norm_num)

theorem testBit5_set_8 (p : Nat) (v : Bool) : (flags.set p 8 v).testBit 5 = p.testBit 5 := by
  simpa using testBit_flags_set_pow p 3 v 5 (by norm_num)

theorem testBit5_set_16 (p : Nat) (v : Bool) : (flags.set p 16 v).testBit 5 = p.testBit 5 := by
  simpa using testBit_flags_set_pow p 4 v 5 (by norm_num)

theorem testBit5_set_32 (p : Nat) (v : Bool) : (flags.set p 32 v).testBit 5 = v := by
  simpa using testBit_flags_set_pow p 5 v 5 (by norm_num)

theorem testBit5_set_64 (p : Nat) (v : Bool) : (flags.set p 64 v).testBit 5 = p.testBit 5 := by
  simpa using testBit_flags_set_pow p 6 v 5 (by norm_num)

theorem testBit5_set_128 (p : Nat) (v : Bool) : (flags.set p 128 v).testBit 5 = p.testBit 5 := by
  simpa using testBit_flags_set_pow p 7 v 5 (by norm_num)

theorem exec_testBit5 (st : MOS6502) (i : Instr) (address : Nat)
    (h5 : st.p.testBit 5 = true) : ((st.exec i address).p).testBit 5 = true := by
  cases h : i.opc <;>
    simp [MOS6502.exec, h, MOS6502.adc, MOS6502.and, MOS6502.asl, MOS6502.bcc,
      MOS6502.bcs, MOS6502.beq, MOS6502.bit, MOS6502.bmi, MOS6502.bne,
      MOS6502.bpl, MOS6502.brk, MOS6502.bvc, MOS6502.bvs, MOS6502.clc,
      MOS6502.cld, MOS6502.cli, MOS6502.clv, MOS6502.cmp, MOS6502.cpx,
      MOS6502.cpy, MOS6502.dec, MOS6502.dex, MOS6502.dey, MOS6502.eor,
      MOS6502.inc, MOS6502.inx, MOS6502.iny, MOS6502.jmp, MOS6502.jsr,
      MOS6502.lda, MOS6502.ldx, MOS6502.ldy, MOS6502.lsr, MOS6502.nop,
      MOS6502.ora, MOS6502.pha, MOS6502.php, MOS6502.pla, MOS6502.plp,
      MOS6502.rol, MOS6502.ror, MOS6502.rti, MOS6502.rts, MOS6502.sbc,
      MOS6502.sec, MOS6502.sed, MOS6502.sei, MOS6502.sta, MOS6502.stx,
      MOS6502.sty, MOS6502.tax, MOS6502.tay, MOS6502.tsx, MOS6502.txa,
      MOS6502.txs, MOS6502.tya, MOS6502.branch, MOS6502.push, MOS6502.pop,
      MOS6502.setP, MOS6502.testAndSetNegative, MOS6502.testAndSetZero,
      MOS6502.testAndSetCarry, MOS6502.testAndSetOverflow,
      P_Carry, P_Zero, P_InterruptDisable, P_Decimal,
      P_Break, P_Reserved, P_Overflow, P_Negative,
      testBit5_set_1, testBit5_set_2, testBit5_set_4, testBit5_set_8,
      testBit5_set_16, testBit5_set_32, testBit5_set_64, testBit5_set_128,
      apply_ite (fun s : MOS6502 => s.p),
      apply_ite (fun n : Nat => n.testBit 5), h5]

/-- A state whose P register has the reserved bit clear, about to run a
NOP. -/
def nopState : MOS6502 :=
  { base with pc := 0x10, StopOnPC := 1, memory := fun _ => 0xea }

/-- Claim C9 counterexample: from a register state whose P has bit 5
clear, executing a NOP through `Cycle` leaves bit 5 clear — the claim's
universal quantification over every register state fails. -/
theorem cycle_reserved_bit_counterexample :
    nopState.p.testBit 5 = false ∧ ((nopState.Cycle).p).testBit 5 = false := by
  refine ⟨by decide, by decide⟩

/-- Claim C9, amended: for every opcode, memory and register state
whose P register has the reserved bit (bit 5) set, after a call to
`Cycle` bit 5 of P is still 1; reset establishes the bit, so it is an
invariant of every run. -/
theorem cycle_preserves_reserved_bit (st : MOS6502) (h5 : st.p.testBit 5 = true) :
    ((st.Cycle).p).testBit 5 = true := by
  rw [MOS6502.Cycle]
  by_cases hstop : st.pc = st.StopOnPC
  · rw [if_pos hstop]
    simpa using h5
  · rw [if_neg hstop]
    simp only []
    cases htab : instructionTable (Memory.Read st.memory st.pc) with
    | none => simpa using h5
    | some i =>
        simp only []
        generalize hla : Instr.load i { st with additionalCycles := 0 } = la
        have hp : la.2.p = st.p := by
          rw [← hla, load_snd_p]
        split <;> split <;>
          first
            | (show (la.2.p).testBit 5 = true
               rw [hp]; exact h5)
            | (refine exec_testBit5 _ i _ ?_
               show (la.2.p).testBit 5 = true
               rw [hp]; exact h5)

/-- A state with only the reserved bit set in P, used as the witness
input for bit-5 preservation. -/
def reservedState : MOS6502 :=
  { base with p := 0x20, pc := 0x10, StopOnPC := 1, memory := fun _ => 0xea }

theorem cycle_preserves_reserved_bit_witness :
    reservedState.p.testBit 5 = true ∧
    ((reservedState.Cycle).p).testBit 5 = true :=
  ⟨by decide, cycle_preserves_reserved_bit reservedState (by decide)⟩

/-- Claim C8, amended: `Cycle` sets HaltSuccess and executes nothing
exactly when PC equals StopOnPC at entry, for every value of StopOnPC
including zero; when PC differs, a HaltSuccess after the call can only
have persisted from before it. -/
theorem cycle_stop_check_characterisation (st : MOS6502) :
    (st.pc = st.StopOnPC → st.Cycle = { st with halt := HaltType.HaltSuccess }) ∧
    ((st.Cycle).halt = HaltType.HaltSuccess →
      st.pc = st.StopOnPC ∨ st.halt = HaltType.HaltSuccess) := by
  constructor
  · intro hstop
    rw [MOS6502.Cycle, if_pos hstop]
  · intro hsucc
    by_cases hstop : st.pc = st.StopOnPC
    · exact Or.inl hstop
    · right
      rw [MOS6502.Cycle, if_neg hstop] at hsucc
      simp only [] at hsucc
      cases htab : instructionTable (Memory.Read st.memory st.pc) with
      | none =>
          rw [htab] at hsucc
          simp at hsucc
      | some i =>
          rw [htab] at hsucc
          simp only [] at hsucc
          revert hsucc
          generalize hla : Instr.load i { st with additionalCycles := 0 } = la
          have hhalt : la.2.halt = st.halt := by
            rw [← hla, load_snd_halt]
          intro hsucc
          split at hsucc <;> split at hsucc <;>
            first
              | (rw [exec_halt] at hsucc
                 rw [← hhalt]
                 exact hsucc)
              | exact HaltType.noConfusion hsucc

theorem cycle_stop_check_characterisation_witness :
    base.Cycle = { base with halt := HaltType.HaltSuccess } :=
  (cycle_stop_check_characterisation base).1 rfl

/-- A concrete ADC input: accumulator 0xFF, operand byte 2, carry clear. -/
def adcState : MOS6502 := { base with a := 0xff, memory := fun _ => 0x02 }

theorem adc_nine_bit_sum_witness :
    adcState.a < 256 ∧
    ((adcState.adc impliedInstr 0).a
        = (adcState.a + adcState.memory.Read 0
            + (if flags.isSet adcState.p P_Carry then 1 else 0)) % 256 ∧
     flags.isSet (adcState.adc impliedInstr 0).p P_Carry
        = (adcState.a + adcState.memory.Read 0
            + (if flags.isSet adcState.p P_Carry then 1 else 0)).testBit 8 ∧
     flags.isSet (adcState.adc impliedInstr 0).p P_Overflow
        = decide (((adcState.a ^^^ (adcState.adc impliedInstr 0).a)
            &&& (adcState.memory.Read 0 ^^^ (adcState.adc impliedInstr 0).a) &&& 0x80) ≠ 0) ∧
     (flags.isSet (adcState.adc impliedInstr 0).p P_Zero = true
        ↔ (adcState.adc impliedInstr 0).a = 0) ∧
     flags.isSet (adcState.adc impliedInstr 0).p P_Negative
        = ((adcState.adc impliedInstr 0).a).testBit 7) :=
  ⟨by decide, adc_nine_bit_sum adcState impliedInstr 0 (by decide)⟩

end MOS
